import Mathlib

/-!
# Verification of the FiberTaskingLib task scheduler core

This file is a shallow embedding, in Lean 4, of the scheduler operations of
`source/task_scheduler.cpp` (namespace `ftl`), together with theorems that
settle the frozen claims about the scheduler.

Modelling conventions:

* Machine integers (`std::size_t`, `uint`) are modelled as `Nat`; where the
  32-bit width of `uint` matters, values are reduced `% UINT_MOD` explicitly.
* A `Fiber` is identified by its pool index.  `Task` bodies are opaque and
  identified by a `Nat`.  An `AtomicCounter` is identified by its index in the
  list of counters of the state (the application allocates counters; here they
  live in one list so that operations on them are ordinary state updates).
* Heap-allocated `std::atomic<bool>` stored flags are identified by their index
  in `SchedState.flags`; a freed flag is `none` (so a use-after-free is
  observable), a live flag is `some b`.
* Each operation returns `Except FtlError α × SchedState × List Event`.  The
  state in the triple is the state at return (or at the C++ undefined-behavior
  point for `.error` results, e.g. an out-of-bounds `m_tls` index).  The
  `List Event` is the trace of the atomic stores/loads on the fiber-pool free
  flags and per-park stored flags, flag allocation/free, counter accesses and
  fiber switches performed by the operation, with the `std::memory_order` of
  each atomic access recorded as data.
* A fiber switch (`Fiber::SwitchToFiber`) ends the modelled step: the code that
  runs after "// And we're back" belongs to a later step of the resumed fiber
  (`CleanUpOldFiber` followed by the fiber-loop body, exactly as in the C++).
* `WaitForCounter` takes an extra argument `mid : Nat → Nat` modelling the
  concurrent counter decrements that land between the fast-path load and the
  re-read performed by `AtomicCounter::AddFiberToWaitingList`; `mid = id` is
  the interference-free case.
* The work-stealing queue (`WaitFreeQueue`), `AtomicCounter`'s waiting list and
  the `FTL_INVALID_INDEX` sentinel are declared in headers that are not part of
  the given sources; they are modelled from the spec where noted, sequentially:
  `Push` appends at the bottom (list back), `Pop` removes from the bottom,
  `Steal` removes from the top (list front).
-/

namespace ftl

/-- Modelled from the spec: the sentinel invalid index returned by
`GetCurrentThreadIndex` for a non-worker thread (`SIZE_MAX` of a 64-bit
`std::size_t`; the header defining `FTL_INVALID_INDEX` is not in the given
sources). -/
def FTL_INVALID_INDEX : Nat := 2 ^ 64 - 1

/-- Modulus of the 32-bit unsigned `uint` values held by an `AtomicCounter`. -/
def UINT_MOD : Nat := 2 ^ 32

/-- The `std::memory_order` of an atomic access, recorded as data. -/
inductive MemOrder
  | relaxed
  | acquire
  | release
  | acq_rel
  | seq_cst
deriving DecidableEq

/-- Observable actions of a scheduler operation: atomic stores/loads on the
fiber-pool free flags and the per-park stored flags, stored-flag allocation
(`new std::atomic<bool>`) and free (`delete`), counter accesses, fiber
switches, and task-body invocations. -/
inductive Event
  | freeFiberStore (fiberIndex : Nat) (val : Bool) (ord : MemOrder)
  | storedFlagStore (flag : Nat) (val : Bool) (ord : MemOrder)
  | storedFlagLoad (flag : Nat) (ord : MemOrder)
  | counterLoad (counter : Nat) (ord : MemOrder)
  | counterStore (counter : Nat) (val : Nat)
  | allocFlag (flag : Nat)
  | freeFlag (flag : Nat)
  | switchFiber (fromFiber toFiber : Nat)
  | taskRun (task : Nat)
deriving DecidableEq

/-- C++ undefined behavior or divergence points of the modelled code:
an out-of-bounds `m_tls` index, the unbounded spin of
`GetNextFreeFiberIndex` on an exhausted pool, and a load or store through a
deleted stored flag. -/
inductive FtlError
  | oobTlsAccess
  | poolExhausted
  | danglingFlag
deriving DecidableEq

/-- `FiberDestination` of `ThreadLocalStorage` (declared in the header, used
by `CleanUpOldFiber`). -/
inductive FiberDestination
  | None
  | ToPool
  | ToWaiting
deriving DecidableEq

/-- `TaskBundle`: a task together with the optional counter to decrement when
the task function returns.  The task body is opaque, identified by a `Nat`. -/
structure TaskBundle where
  TaskToExecute : Nat
  Counter : Option Nat
deriving DecidableEq

/-- `PinnedWaitingFiberBundle`: an entry of `tls.PinnedTasks` —
`(FiberIndex, Counter, TargetValue)`. -/
structure PinnedWaitingFiberBundle where
  FiberIndex : Nat
  Counter : Nat
  TargetValue : Nat
deriving DecidableEq

/-- Modelled from the spec: a waiting slot of an `AtomicCounter`
(`atomic_counter.h` is not in the given sources): `(fiberIndex, targetValue,
storedFlag)`. -/
structure WaitSlot where
  fiberIndex : Nat
  targetValue : Nat
  storedFlag : Nat
deriving DecidableEq

/-- Modelled from the spec: an `AtomicCounter` — an atomic integer plus its
waiting-fiber slots (`atomic_counter.h` is not in the given sources). -/
structure CounterState where
  value : Nat
  waiters : List WaitSlot
deriving DecidableEq

/-- `ThreadLocalStorage` of one worker thread (declared in the header; fields
are the ones used by `task_scheduler.cpp`). -/
structure ThreadLocalStorage where
  CurrentFiberIndex : Nat
  OldFiberIndex : Nat
  OldFiberDestination : FiberDestination
  OldFiberStoredFlag : Nat
  TaskQueue : List TaskBundle
  PinnedTasks : List PinnedWaitingFiberBundle
  ReadyFibers : List (Nat × Nat)
  LastSuccessfulSteal : Nat
deriving DecidableEq

/-- The scheduler state: `m_threads` (OS thread identifiers, one per worker,
`numThreads = threads.length`), the fiber-pool free flags `m_freeFibers`, the
TLS array `m_tls`, the application's counters, and the heap of per-park stored
flags (`none` = freed). -/
structure SchedState where
  threads : List Nat
  freeFibers : List Bool
  tls : List ThreadLocalStorage
  counters : List CounterState
  flags : List (Option Bool)
deriving DecidableEq

/-- Decidable equality of `Except` results, used to evaluate the operations
on concrete states. -/
instance {ε α : Type} [DecidableEq ε] [DecidableEq α] : DecidableEq (Except ε α) := fun a b =>
  match a, b with
  | .ok x, .ok y =>
    if h : x = y then isTrue (by rw [h]) else isFalse (fun he => h (by cases he; rfl))
  | .ok _, .error _ => isFalse (fun he => Except.noConfusion he)
  | .error _, .ok _ => isFalse (fun he => Except.noConfusion he)
  | .error x, .error y =>
    if h : x = y then isTrue (by rw [h]) else isFalse (fun he => h (by cases he; rfl))

/-- Array read `l[i]` with an out-of-bounds read observable as `none`. -/
def nth {α : Type} : List α → Nat → Option α
  | [], _ => none
  | a :: _, 0 => some a
  | _ :: l, n + 1 => nth l n

/-- Array write `l[i] := a` (no-op out of bounds). -/
def setNth {α : Type} : List α → Nat → α → List α
  | [], _, _ => []
  | _ :: l, 0, b => b :: l
  | a :: l, n + 1, b => a :: setNth l n b

/-- Value of counter `c` (`AtomicCounter::Load`). -/
def counterValueOf (cs : List CounterState) (c : Nat) : Nat :=
  match nth cs c with
  | some x => x.value
  | none => 0

/-- Value of counter `c` in state `s`. -/
def counterLoadVal (s : SchedState) (c : Nat) : Nat :=
  counterValueOf s.counters c

/-- Update counter `c` in place (no-op if `c` is out of range). -/
def modifyCounter (cs : List CounterState) (c : Nat) (f : CounterState → CounterState) :
    List CounterState :=
  match nth cs c with
  | some x => setNth cs c (f x)
  | none => cs

/-- The scan of `TaskScheduler::GetCurrentThreadIndex`: walk `m_threads`
comparing with the calling thread's identifier; return the first matching
index, or `FTL_INVALID_INDEX` if the caller is not a registered worker. -/
def threadLookup : List Nat → Nat → Nat → Nat
  | [], _, _ => FTL_INVALID_INDEX
  | x :: rest, a, i => if x = a then i else threadLookup rest a (i + 1)

/-- `TaskScheduler::GetCurrentThreadIndex` for the thread whose OS identifier
is `callerId`. -/
def getCurrentThreadIndex (s : SchedState) (callerId : Nat) : Nat :=
  threadLookup s.threads callerId 0

/-- The scan inside `TaskScheduler::GetNextFreeFiberIndex`: index of the first
free-fiber flag observed `true` (the double relaxed/acquire load followed by
the CAS of the C++ collapse, sequentially, to finding a `true` slot).  `none`
models the unbounded retry loop of an exhausted pool. -/
def findFreeFiber : List Bool → Option Nat
  | [] => none
  | b :: rest => if b then some 0 else (findFreeFiber rest).map (· + 1)

/-- `TaskScheduler::AddTask`.  `tid` is the value of `GetCurrentThreadIndex()`
at entry.  Stores 1 into the counter (if present) and then pushes the bundle
onto `m_tls[tid]`'s queue; the TLS access is bounds-checked so that the
out-of-bounds access of a non-worker caller is observable as an error. -/
def addTask (s : SchedState) (tid : Nat) (task : Nat) (counter : Option Nat) :
    Except FtlError Unit × SchedState × List Event :=
  match counter with
  | some c =>
    let s1 : SchedState :=
      { s with counters := modifyCounter s.counters c (fun x => { x with value := 1 % UINT_MOD }) }
    match nth s1.tls tid with
    | none => (.error .oobTlsAccess, s1, [.counterStore c 1])
    | some t =>
      let t' : ThreadLocalStorage := { t with TaskQueue := t.TaskQueue ++ [⟨task, some c⟩] }
      (.ok (), { s1 with tls := setNth s1.tls tid t' }, [.counterStore c 1])
  | none =>
    match nth s.tls tid with
    | none => (.error .oobTlsAccess, s, [])
    | some t =>
      let t' : ThreadLocalStorage := { t with TaskQueue := t.TaskQueue ++ [⟨task, none⟩] }
      (.ok (), { s with tls := setNth s.tls tid t' }, [])

/-- `TaskScheduler::AddTasks`: stores `numTasks` into the counter (if present)
and pushes one bundle per task, in order. -/
def addTasks (s : SchedState) (tid : Nat) (tasks : List Nat) (counter : Option Nat) :
    Except FtlError Unit × SchedState × List Event :=
  match counter with
  | some c =>
    let s1 : SchedState :=
      { s with counters :=
          modifyCounter s.counters c (fun x => { x with value := tasks.length % UINT_MOD }) }
    match nth s1.tls tid with
    | none => (.error .oobTlsAccess, s1, [.counterStore c tasks.length])
    | some t =>
      let t' : ThreadLocalStorage :=
        { t with TaskQueue := t.TaskQueue ++ tasks.map (fun a => ⟨a, some c⟩) }
      (.ok (), { s1 with tls := setNth s1.tls tid t' }, [.counterStore c tasks.length])
  | none =>
    match nth s.tls tid with
    | none => (.error .oobTlsAccess, s, [])
    | some t =>
      let t' : ThreadLocalStorage :=
        { t with TaskQueue := t.TaskQueue ++ tasks.map (fun a => ⟨a, none⟩) }
      (.ok (), { s with tls := setNth s.tls tid t' }, [])

/-- Iterated submission: `N` separate `AddTask(task_i, counter)` calls, one per
element of `tasks`, stopping at the first error. -/
def addTaskIter (s : SchedState) (tid : Nat) (tasks : List Nat) (counter : Option Nat) :
    Except FtlError Unit × SchedState × List Event :=
  match tasks with
  | [] => (.ok (), s, [])
  | task :: rest =>
    match addTask s tid task counter with
    | (.ok _, s', ev) =>
      match addTaskIter s' tid rest counter with
      | (r, s'', ev') => (r, s'', ev ++ ev')
    | (.error e, s', ev) => (.error e, s', ev)

/-- `TaskScheduler::AddReadyFiber`: appends `(fiberIndex, fiberStoredFlag)` to
the `ReadyFibers` list of the calling thread's own TLS
(`m_tls[GetCurrentThreadIndex()]`). -/
def addReadyFiber (s : SchedState) (callerId : Nat) (fiberIndex : Nat) (fiberStoredFlag : Nat) :
    Except FtlError Unit × SchedState × List Event :=
  match nth s.tls (getCurrentThreadIndex s callerId) with
  | none => (.error .oobTlsAccess, s, [])
  | some t =>
    let t' : ThreadLocalStorage :=
      { t with ReadyFibers := t.ReadyFibers ++ [(fiberIndex, fiberStoredFlag)] }
    (.ok (), { s with tls := setNth s.tls (getCurrentThreadIndex s callerId) t' }, [])

/-- Owner-side `Pop` of the work-stealing queue: remove from the bottom (list
back).  Modelled from the spec (`wait_free_queue.h` is not in the given
sources), sequentially. -/
def popBottom {α : Type} : List α → Option (α × List α)
  | [] => none
  | a :: l =>
    match popBottom l with
    | none => some (a, [])
    | some (b, l') => some (b, a :: l')

/-- The steal loop of `TaskScheduler::GetNextTask`: probe victims
`(start + i) % numThreads` for `i = 0, 1, ...`, skipping `tid` itself; on the
first successful steal take the victim queue's top element and set the calling
thread's `LastSuccessfulSteal` to the loop offset `i`.  `remaining` counts the
probes still to make (`numThreads` at entry, matching the C++ `for` bound). -/
def stealScan (s : SchedState) (tid : Nat) (t : ThreadLocalStorage) (start : Nat) :
    Nat → Nat → Except FtlError (Option TaskBundle) × SchedState × List Event
  | _, 0 => (.ok none, s, [])
  | i, remaining + 1 =>
    if (start + i) % s.threads.length = tid then
      stealScan s tid t start (i + 1) remaining
    else
      match nth s.tls ((start + i) % s.threads.length) with
      | none => (.error .oobTlsAccess, s, [])
      | some vt =>
        match vt.TaskQueue with
        | [] => stealScan s tid t start (i + 1) remaining
        | b :: q' =>
          let tls' : List ThreadLocalStorage :=
            setNth (setNth s.tls ((start + i) % s.threads.length) { vt with TaskQueue := q' })
              tid { t with LastSuccessfulSteal := i }
          (.ok (some b), { s with tls := tls' }, [])

/-- `TaskScheduler::GetNextTask`: pop the calling worker's own queue; on a
miss, steal, scanning from `LastSuccessfulSteal` and wrapping modulo
`numThreads`. -/
def getNextTask (s : SchedState) (tid : Nat) :
    Except FtlError (Option TaskBundle) × SchedState × List Event :=
  match nth s.tls tid with
  | none => (.error .oobTlsAccess, s, [])
  | some t =>
    match popBottom t.TaskQueue with
    | some (b, q') =>
      (.ok (some b), { s with tls := setNth s.tls tid { t with TaskQueue := q' } }, [])
    | none => stealScan s tid t t.LastSuccessfulSteal 0 s.threads.length

/-- `TaskScheduler::CleanUpOldFiber`: release the fiber this thread switched
away from, according to `OldFiberDestination`.  `ToPool` stores `true` into
the old fiber's free flag with release ordering; `ToWaiting` stores `true`
into the park's stored flag with relaxed ordering (as written at
`task_scheduler.cpp:425`); `None` is a no-op. -/
def cleanUpOldFiber (s : SchedState) (tid : Nat) :
    Except FtlError Unit × SchedState × List Event :=
  match nth s.tls tid with
  | none => (.error .oobTlsAccess, s, [])
  | some t =>
    match t.OldFiberDestination with
    | .ToPool =>
      let t' : ThreadLocalStorage :=
        { t with OldFiberDestination := .None, OldFiberIndex := FTL_INVALID_INDEX }
      (.ok (),
       { s with freeFibers := setNth s.freeFibers t.OldFiberIndex true,
                tls := setNth s.tls tid t' },
       [.freeFiberStore t.OldFiberIndex true .release])
    | .ToWaiting =>
      match nth s.flags t.OldFiberStoredFlag with
      | some (some _) =>
        let t' : ThreadLocalStorage :=
          { t with OldFiberDestination := .None, OldFiberIndex := FTL_INVALID_INDEX }
        (.ok (),
         { s with flags := setNth s.flags t.OldFiberStoredFlag (some true),
                  tls := setNth s.tls tid t' },
         [.storedFlagStore t.OldFiberStoredFlag true .relaxed])
      | _ => (.error .danglingFlag, s, [])
    | .None => (.ok (), s, [])

/-- The pinned scan of the fiber loop (`task_scheduler.cpp:103-111`): first
`PinnedTasks` bundle whose counter equals its target value, together with the
list with that bundle erased. -/
def findFirstPinned (cs : List CounterState) :
    List PinnedWaitingFiberBundle →
      Option (PinnedWaitingFiberBundle × List PinnedWaitingFiberBundle)
  | [] => none
  | b :: rest =>
    if counterValueOf cs b.Counter = b.TargetValue then some (b, rest)
    else
      match findFirstPinned cs rest with
      | some (w, rest') => some (w, b :: rest')
      | none => none

/-- The ready scan of the fiber loop (`task_scheduler.cpp:114-125`): first
`ReadyFibers` entry whose stored flag loads `true` (relaxed), together with
the list with that entry erased and the trace of the stored-flag loads
performed.  A load through a deleted flag is an error. -/
def findFirstReady (flags : List (Option Bool)) :
    List (Nat × Nat) →
      Except FtlError (Option ((Nat × Nat) × List (Nat × Nat))) × List Event
  | [] => (.ok none, [])
  | e :: rest =>
    match nth flags e.2 with
    | some (some b) =>
      if b then (.ok (some (e, rest)), [.storedFlagLoad e.2 .relaxed])
      else
        match findFirstReady flags rest with
        | (.ok (some (w, rest')), ev) =>
          (.ok (some (w, e :: rest')), .storedFlagLoad e.2 .relaxed :: ev)
        | (.ok none, ev) => (.ok none, .storedFlagLoad e.2 .relaxed :: ev)
        | (.error err, ev) => (.error err, .storedFlagLoad e.2 .relaxed :: ev)
    | _ => (.error .danglingFlag, [])

/-- Outcome of one iteration of the fiber-loop body. -/
inductive LoopOutcome
  | resumedPinned (fiber : Nat)
  | resumedReady (fiber : Nat)
  | ranTask (bundle : TaskBundle)
  | idle
deriving DecidableEq

/-- The task path of the fiber loop (`task_scheduler.cpp:140-164`): dequeue
via `GetNextTask`; on a miss apply the empty-queue behavior (Yield, Sleep and
Spin all just re-enter the loop — modelled as `idle`); otherwise run the task
and, if its bundle has a counter, `FetchSub(1)` on it (32-bit wrap-around). -/
def executeNextTask (s : SchedState) (tid : Nat) :
    Except FtlError LoopOutcome × SchedState × List Event :=
  match getNextTask s tid with
  | (.error e, s', ev) => (.error e, s', ev)
  | (.ok none, s', ev) => (.ok .idle, s', ev)
  | (.ok (some b), s', ev) =>
    match b.Counter with
    | some c =>
      (.ok (.ranTask b),
       { s' with counters :=
           (modifyCounter s'.counters c
             (fun x => { x with value := (x.value + UINT_MOD - 1) % UINT_MOD })) },
       ev ++ [.taskRun b.TaskToExecute])
    | none => (.ok (.ranTask b), s', ev ++ [.taskRun b.TaskToExecute])

/-- One iteration of the fiber-loop body of `TaskScheduler::FiberStart`
(`task_scheduler.cpp:98-165`): scan `PinnedTasks` for a bundle whose counter
reached its target; if none, scan `ReadyFibers` for an entry whose stored flag
is `true` (freeing the flag of the winner); if a fiber was found, record
`OldFiberIndex := CurrentFiberIndex`, `CurrentFiberIndex :=` found,
`OldFiberDestination := ToPool` and switch to it; otherwise dequeue and run a
task. -/
def fiberLoopIteration (s : SchedState) (tid : Nat) :
    Except FtlError LoopOutcome × SchedState × List Event :=
  match nth s.tls tid with
  | none => (.error .oobTlsAccess, s, [])
  | some t =>
    match findFirstPinned s.counters t.PinnedTasks with
    | some (b, rest) =>
      let t' : ThreadLocalStorage :=
        { t with PinnedTasks := rest, OldFiberIndex := t.CurrentFiberIndex,
                 CurrentFiberIndex := b.FiberIndex, OldFiberDestination := .ToPool }
      (.ok (.resumedPinned b.FiberIndex), { s with tls := setNth s.tls tid t' },
       [.switchFiber t.CurrentFiberIndex b.FiberIndex])
    | none =>
      match findFirstReady s.flags t.ReadyFibers with
      | (.error e, ev) => (.error e, s, ev)
      | (.ok (some (w, rest)), ev) =>
        let t' : ThreadLocalStorage :=
          { t with ReadyFibers := rest, OldFiberIndex := t.CurrentFiberIndex,
                   CurrentFiberIndex := w.1, OldFiberDestination := .ToPool }
        (.ok (.resumedReady w.1),
         { s with flags := setNth s.flags w.2 none, tls := setNth s.tls tid t' },
         ev ++ [.freeFlag w.2, .switchFiber t.CurrentFiberIndex w.1])
      | (.ok none, ev) =>
        match executeNextTask s tid with
        | (r, s', ev2) => (r, s', ev ++ ev2)

/-- What `TaskScheduler::WaitForCounter` returns to its caller. -/
inductive WaitResult
  | fastReturn
  | alreadyDoneReturn
  | switched (toFiber : Nat)
deriving DecidableEq

/-- Continuation of `WaitForCounter` after the fast-path check, the TLS fetch
and the free-fiber reservation (`task_scheduler.cpp:452-476`).  `s` already
has the replacement fiber's free flag cleared and the interference applied to
the counter.  The pinned branch appends to `PinnedTasks` and switches — note
that, exactly as in the C++, it does not update `CurrentFiberIndex` and sets
no `OldFiber*` field.  The unpinned branch allocates a stored flag and asks
the counter to track the park (`AddFiberToWaitingList`, modelled from the
spec: re-read the counter; if it already equals the target, report "already
done" without publishing the slot); on "already done" it deletes the flag,
stores `true` back into the replacement fiber's free flag (release) and
returns; otherwise it publishes the slot, fills in the `OldFiber*` TLS fields,
sets `CurrentFiberIndex` to the replacement fiber and switches. -/
def waitForCounterCont (s : SchedState) (tid : Nat) (c : Nat) (value : Nat) (pin : Bool)
    (t : ThreadLocalStorage) (currentFiberIndex : Nat) (freeFiberIndex : Nat) :
    Except FtlError WaitResult × SchedState × List Event :=
  if pin then
    let t' : ThreadLocalStorage :=
      { t with PinnedTasks := t.PinnedTasks ++ [⟨currentFiberIndex, c, value⟩] }
    (.ok (.switched freeFiberIndex), { s with tls := setNth s.tls tid t' },
     [.counterLoad c .relaxed, .freeFiberStore freeFiberIndex false .release,
      .switchFiber currentFiberIndex freeFiberIndex])
  else
    if counterLoadVal s c = value then
      (.ok .alreadyDoneReturn,
       { s with flags := setNth (s.flags ++ [some false]) s.flags.length none,
                freeFibers := setNth s.freeFibers freeFiberIndex true },
       [.counterLoad c .relaxed, .freeFiberStore freeFiberIndex false .release,
        .allocFlag s.flags.length, .freeFlag s.flags.length,
        .freeFiberStore freeFiberIndex true .release])
    else
      let t' : ThreadLocalStorage :=
        { t with OldFiberIndex := currentFiberIndex, CurrentFiberIndex := freeFiberIndex,
                 OldFiberDestination := .ToWaiting, OldFiberStoredFlag := s.flags.length }
      (.ok (.switched freeFiberIndex),
       { s with flags := s.flags ++ [some false],
                counters := (modifyCounter s.counters c
                  (fun x => { x with waiters := x.waiters ++ [⟨currentFiberIndex, value, s.flags.length⟩] })),
                tls := setNth s.tls tid t' },
       [.counterLoad c .relaxed, .freeFiberStore freeFiberIndex false .release,
        .allocFlag s.flags.length, .switchFiber currentFiberIndex freeFiberIndex])

/-- `TaskScheduler::WaitForCounter(counter, value, pinToCurrentThread)`
(`task_scheduler.cpp:440-480`).  Fast path: if the counter already loads
`value` (relaxed), return at once.  Otherwise fetch the TLS, reserve a
replacement fiber from the pool and continue in `waitForCounterCont`.
`mid` models the concurrent decrements landing between the fast-path load and
the `AddFiberToWaitingList` re-read (`mid = id` for no interference); it is
applied to the counter after the fast-path check. -/
def waitForCounter (s : SchedState) (tid : Nat) (c : Nat) (value : Nat) (pin : Bool)
    (mid : Nat → Nat) : Except FtlError WaitResult × SchedState × List Event :=
  if counterLoadVal s c = value then
    (.ok .fastReturn, s, [.counterLoad c .relaxed])
  else
    match nth s.tls tid with
    | none => (.error .oobTlsAccess, s, [.counterLoad c .relaxed])
    | some t =>
      match findFreeFiber s.freeFibers with
      | none => (.error .poolExhausted, s, [.counterLoad c .relaxed])
      | some freeFiberIndex =>
        let s1 : SchedState :=
          { s with freeFibers := setNth s.freeFibers freeFiberIndex false,
                   counters := modifyCounter s.counters c (fun x => { x with value := mid x.value }) }
        waitForCounterCont s1 tid c value pin t t.CurrentFiberIndex freeFiberIndex

/-- A probe of the steal loop at offset `j` fails: the victim
`(start + j) % numThreads` is the calling worker itself, or its queue is
observed empty. -/
def stealFailsAt (s : SchedState) (tid start j : Nat) : Prop :=
  (start + j) % s.threads.length = tid
  ∨ (nth s.tls ((start + j) % s.threads.length)).map (fun vt => vt.TaskQueue) = some []

instance (s : SchedState) (tid start j : Nat) : Decidable (stealFailsAt s tid start j) := by
  unfold stealFailsAt
  infer_instance

/-- A quiescent worker TLS used to build the concrete states of the
witnesses: fiber 0 current, no deferred cleanup, empty lists. -/
def tlsBase : ThreadLocalStorage :=
  { CurrentFiberIndex := 0, OldFiberIndex := FTL_INVALID_INDEX, OldFiberDestination := .None,
    OldFiberStoredFlag := 0, TaskQueue := [], PinnedTasks := [], ReadyFibers := [],
    LastSuccessfulSteal := 0 }

/-- Concrete state for the pinned-wait scenario: one worker (thread id 100)
running fiber 0, fiber 1 free in the pool, fiber 2 parked and delivered to
this worker's ready list with live stored flag 0 already `true`, and one
counter holding 5. -/
def stateC1 : SchedState :=
  { threads := [100], freeFibers := [false, true, false],
    tls := [{ tlsBase with ReadyFibers := [(2, 0)] }],
    counters := [⟨5, []⟩], flags := [some true] }

/-- State after a pinned `WaitForCounter(counter 0, 7, pin)` on `stateC1`:
the thread has switched to replacement fiber 1. -/
def stateC1a : SchedState := (waitForCounter stateC1 0 0 7 true (fun v => v)).2.1

/-- State after fiber 1 starts its loop and runs `CleanUpOldFiber` (a no-op:
the pinned park set no `OldFiber*` field). -/
def stateC1b : SchedState := (cleanUpOldFiber stateC1a 0).2.1

/-- State after fiber 1's first loop iteration, which resumes ready fiber 2. -/
def stateC1c : SchedState := (fiberLoopIteration stateC1b 0).2.1

/-- State after fiber 2 resumes and runs `CleanUpOldFiber`. -/
def stateC1d : SchedState := (cleanUpOldFiber stateC1c 0).2.1

/-- Concrete state for the already-done race: one worker running fiber 0,
fiber 1 free, one counter holding 1, no stored flags allocated. -/
def stateC2 : SchedState :=
  { threads := [100], freeFibers := [false, true], tls := [tlsBase],
    counters := [⟨1, []⟩], flags := [] }

/-- Concrete state for task submission: one worker, one counter holding 0. -/
def stateC3 : SchedState :=
  { threads := [100], freeFibers := [], tls := [tlsBase], counters := [⟨0, []⟩], flags := [] }

/-- Concrete state for the already-done restoration witness: one worker
running fiber 0, fiber 0 free in the pool, one counter holding 1. -/
def stateC4 : SchedState :=
  { threads := [100], freeFibers := [true], tls := [tlsBase], counters := [⟨1, []⟩], flags := [] }

/-- Concrete state for the fast path: one counter already holding 3. -/
def stateC5 : SchedState :=
  { threads := [100], freeFibers := [true], tls := [tlsBase], counters := [⟨3, []⟩], flags := [] }

/-- Concrete state for the fiber-loop priority witness: a pinned bundle for
fiber 4 on counter 0 whose target 0 is reached, and a ready entry for fiber 5
whose stored flag is true — the pinned one must win. -/
def tlsC6 : ThreadLocalStorage :=
  { tlsBase with PinnedTasks := [⟨4, 0, 0⟩], ReadyFibers := [(5, 0)] }

/-- Scheduler state around `tlsC6`: counter 0 already at the pinned target 0,
ready flag 0 true — the pinned fiber must win. -/
def stateC6 : SchedState :=
  { threads := [100], freeFibers := [], tls := [tlsC6], counters := [⟨0, []⟩],
    flags := [some true] }

/-- Concrete state for the steal scan: three workers; worker 0 has an empty
queue and `LastSuccessfulSteal = 2`; worker 1 has one task; worker 2 none. -/
def tlsC7a : ThreadLocalStorage := { tlsBase with LastSuccessfulSteal := 2 }

/-- Worker 1 of the steal scenario: one stealable task. -/
def tlsC7b : ThreadLocalStorage := { tlsBase with TaskQueue := [⟨9, none⟩] }

/-- Scheduler state around them: three workers, worker 0's own queue empty. -/
def stateC7 : SchedState :=
  { threads := [100, 101, 102], freeFibers := [], tls := [tlsC7a, tlsC7b, tlsBase],
    counters := [], flags := [] }

/-- Concrete state for the non-worker submission: one worker with OS thread
id 100; the caller will use id 999. -/
def stateC8 : SchedState :=
  { threads := [100], freeFibers := [], tls := [tlsBase], counters := [⟨0, []⟩], flags := [] }

/-- Concrete state for the deferred stored-flag publication: the worker's last
switch parked a fiber to waiting with stored flag 0 (still false, live). -/
def tlsC9 : ThreadLocalStorage :=
  { tlsBase with OldFiberIndex := 3, OldFiberDestination := .ToWaiting,
                 OldFiberStoredFlag := 0 }

/-- Scheduler state around `tlsC9`. -/
def stateC9 : SchedState :=
  { threads := [100], freeFibers := [false], tls := [tlsC9], counters := [],
    flags := [some false] }

/-- Concrete state for ready-fiber delivery: two workers (thread ids 100 and
101), both with empty ready lists. -/
def stateC10 : SchedState :=
  { threads := [100, 101], freeFibers := [], tls := [tlsBase, tlsBase],
    counters := [], flags := [] }

/-! ## Helper lemmas about the array primitives -/

theorem nth_some_lt_length {α : Type} :
    ∀ (l : List α) (i : Nat) (a : α), nth l i = some a → i < l.length
  | _ :: _, 0, _, _ => Nat.succ_pos _
  | _ :: l, i + 1, a, h => Nat.succ_lt_succ (nth_some_lt_length l i a h)

theorem nth_eq_none_of_le {α : Type} :
    ∀ (l : List α) (i : Nat), l.length ≤ i → nth l i = none
  | [], _, _ => rfl
  | _ :: l, i + 1, h => nth_eq_none_of_le l i (Nat.le_of_succ_le_succ h)

theorem nth_setNth_self {α : Type} :
    ∀ (l : List α) (i : Nat) (a : α), i < l.length → nth (setNth l i a) i = some a
  | _ :: _, 0, _, _ => rfl
  | _ :: l, i + 1, a, h => nth_setNth_self l i a (Nat.lt_of_succ_lt_succ h)

theorem nth_setNth_ne {α : Type} :
    ∀ (l : List α) (i j : Nat) (a : α), i ≠ j → nth (setNth l i a) j = nth l j
  | [], _, _, _, _ => rfl
  | _ :: _, 0, 0, _, h => absurd rfl h
  | _ :: _, 0, _ + 1, _, _ => rfl
  | _ :: _, _ + 1, 0, _, _ => rfl
  | _ :: l, i + 1, j + 1, a, h =>
    nth_setNth_ne l i j a (fun hij => h (congrArg Nat.succ hij))

theorem setNth_setNth {α : Type} :
    ∀ (l : List α) (i : Nat) (a b : α), setNth (setNth l i a) i b = setNth l i b
  | [], _, _, _ => rfl
  | _ :: _, 0, _, _ => rfl
  | x :: l, i + 1, a, b => congrArg (x :: ·) (setNth_setNth l i a b)

theorem setNth_self {α : Type} :
    ∀ (l : List α) (i : Nat) (a : α), nth l i = some a → setNth l i a = l
  | _ :: _, 0, _, h => by rw [← Option.some_inj.mp h]; rfl
  | x :: l, i + 1, a, h => congrArg (x :: ·) (setNth_self l i a h)

theorem length_setNth {α : Type} :
    ∀ (l : List α) (i : Nat) (a : α), (setNth l i a).length = l.length
  | [], _, _ => rfl
  | _ :: _, 0, _ => rfl
  | _ :: l, i + 1, a => congrArg Nat.succ (length_setNth l i a)

theorem setNth_append_length {α : Type} :
    ∀ (l : List α) (a b : α), setNth (l ++ [a]) l.length b = l ++ [b]
  | [], _, _ => rfl
  | x :: l, a, b => congrArg (x :: ·) (setNth_append_length l a b)

theorem nth_lt_some {α : Type} :
    ∀ (l : List α) (i : Nat), i < l.length → ∃ a, nth l i = some a
  | _ :: _, 0, _ => ⟨_, rfl⟩
  | _ :: l, i + 1, h => nth_lt_some l i (Nat.lt_of_succ_lt_succ h)

theorem findFreeFiber_nth :
    ∀ (l : List Bool) (i : Nat), findFreeFiber l = some i → nth l i = some true := by
  intro l
  induction l with
  | nil => intro i h; exact absurd h (by simp [findFreeFiber])
  | cons b rest ih =>
    intro i h
    cases b with
    | true =>
      rw [findFreeFiber, if_pos rfl] at h
      cases h
      rfl
    | false =>
      rw [findFreeFiber, if_neg Bool.false_ne_true] at h
      cases hfind : findFreeFiber rest with
      | none => rw [hfind] at h; exact absurd h (by simp)
      | some j =>
        rw [hfind] at h
        have hji : j + 1 = i := by simpa using h
        cases hji
        exact ih j hfind

theorem threadLookup_invalid :
    ∀ (l : List Nat) (a : Nat) (i : Nat), (∀ x ∈ l, x ≠ a) → threadLookup l a i = FTL_INVALID_INDEX
  | [], _, _, _ => rfl
  | x :: rest, a, i, h => by
    have hx : ¬x = a := h x (List.mem_cons_self x rest)
    rw [threadLookup, if_neg hx]
    exact threadLookup_invalid rest a (i + 1) (fun y hy => h y (List.mem_cons_of_mem x hy))

theorem counterValueOf_modify (cs : List CounterState) (c : Nat) (f : CounterState → CounterState)
    (x : CounterState) (hx : nth cs c = some x) :
    counterValueOf (modifyCounter cs c f) c = (f x).value := by
  rw [modifyCounter, hx, counterValueOf,
    nth_setNth_self cs c (f x) (nth_some_lt_length cs c x hx)]

/-! ## C5 — fast path of WaitForCounter -/

/-- C5: for every call of `WaitForCounter(counter, value, pin)` in a state
where the counter's loaded value already equals `value`, the call returns
immediately with the scheduler state (hence every thread-local field)
completely unchanged, and the trace holds a single relaxed counter load — no
fiber switch, no free-fiber reservation. -/
theorem C5_fast_path_frame (s : SchedState) (tid c value : Nat) (pin : Bool)
    (mid : Nat → Nat) (h : counterLoadVal s c = value) :
    waitForCounter s tid c value pin mid = (.ok .fastReturn, s, [.counterLoad c .relaxed]) := by
  rw [waitForCounter, if_pos h]

/-- Witness for C5 at a concrete state whose counter 0 holds 3. -/
theorem C5_fast_path_frame_witness :
    waitForCounter stateC5 0 0 3 false (fun v => v) =
      (.ok .fastReturn, stateC5, [.counterLoad 0 .relaxed]) :=
  C5_fast_path_frame stateC5 0 0 3 false (fun v => v) (by decide)

/-! ## C4 — the already-done path of WaitForCounter -/

/-- C4: when the fast path misses but the counter reaches the target between
the fast-path load and `AddFiberToWaitingList` (interference `mid`), the
unpinned `WaitForCounter` returns `alreadyDoneReturn` without any fiber
switch; the reserved replacement fiber's free flag is stored back to `true`
(so `freeFibers` is exactly as before the call), the TLS array is untouched,
no waiting slot is published, and the allocated stored flag is freed. -/
theorem C4_already_done_restores (s : SchedState) (tid c value : Nat) (mid : Nat → Nat)
    (t : ThreadLocalStorage) (i : Nat)
    (ht : nth s.tls tid = some t)
    (hfast : counterLoadVal s c ≠ value)
    (hfree : findFreeFiber s.freeFibers = some i)
    (hc : c < s.counters.length)
    (hmid : mid (counterLoadVal s c) = value) :
    waitForCounter s tid c value false mid =
      (.ok .alreadyDoneReturn,
       { s with counters := modifyCounter s.counters c (fun x => { x with value := mid x.value }),
                flags := s.flags ++ [none] },
       [.counterLoad c .relaxed, .freeFiberStore i false .release,
        .allocFlag s.flags.length, .freeFlag s.flags.length,
        .freeFiberStore i true .release]) := by
  obtain ⟨x, hx⟩ := nth_lt_some s.counters c hc
  rw [waitForCounter, if_neg hfast, ht, hfree]
  have hval : counterLoadVal s c = x.value := by
    rw [counterLoadVal, counterValueOf, hx]
  rw [hval] at hmid
  have hrecheck :
      counterLoadVal
        { s with freeFibers := setNth s.freeFibers i false,
                 counters := modifyCounter s.counters c (fun y => { y with value := mid y.value }) }
        c = value := by
    show counterValueOf (modifyCounter s.counters c (fun y => { y with value := mid y.value })) c
      = value
    rw [counterValueOf_modify s.counters c _ x hx]
    exact hmid
  simp only [waitForCounterCont]
  rw [if_neg Bool.false_ne_true, if_pos hrecheck]
  have hfibers : setNth (setNth s.freeFibers i false) i true = s.freeFibers := by
    rw [setNth_setNth]
    exact setNth_self s.freeFibers i true (findFreeFiber_nth s.freeFibers i hfree)
  have hflags : setNth (s.flags ++ [some false]) s.flags.length none = s.flags ++ [none] :=
    setNth_append_length s.flags (some false) none
  simp only [hfibers, hflags]

/-- Witness for C4: on `stateC4` (counter 0 holding 1, target 0, one free
fiber), with the last decrement landing between the fast-path check and the
parking, the call returns already-done with the pool and TLS restored. -/
theorem C4_already_done_restores_witness :
    waitForCounter stateC4 0 0 0 false (fun v => v - 1) =
      (.ok .alreadyDoneReturn,
       { stateC4 with
           counters := modifyCounter stateC4.counters 0 (fun x => { x with value := x.value - 1 }),
           flags := stateC4.flags ++ [none] },
       [.counterLoad 0 .relaxed, .freeFiberStore 0 false .release,
        .allocFlag stateC4.flags.length, .freeFlag stateC4.flags.length,
        .freeFiberStore 0 true .release]) :=
  C4_already_done_restores stateC4 0 0 0 (fun v => v - 1) tlsBase 0
    (by decide) (by decide) (by decide) (by decide) (by decide)

/-! ## C1 — CurrentFiberIndex across the pinned park of WaitForCounter -/

/-- C1: the claim is that every fiber switch — including the pinned park of
`WaitForCounter` — updates `tls.CurrentFiberIndex` to the fiber being
switched to.  The code violates this: on `stateC1` the pinned park switches
fiber 0 to replacement fiber 1 while `CurrentFiberIndex` stays 0 (the parked
fiber).  The consequence is fatal for the fiber-pool bookkeeping: when the
replacement fiber's loop then resumes ready fiber 2, it records
`OldFiberIndex = 0` (the stale value) with destination `ToPool`, and the
next `CleanUpOldFiber` publishes fiber 0 — still parked in `PinnedTasks` —
as free in the pool, while replacement fiber 1 is leaked (never released,
never current).  This contradicts the exactly-one-place fiber invariant of
the spec and of the code's own `CleanUpOldFiber` comment. -/
theorem C1_pinned_park_breaks_fiber_tracking :
    (waitForCounter stateC1 0 0 7 true (fun v => v)).1 = .ok (.switched 1)
    ∧ (nth stateC1a.tls 0).map (fun t => t.CurrentFiberIndex) = some 0
    ∧ (0 : Nat) ≠ 1
    ∧ (cleanUpOldFiber stateC1a 0).1 = .ok ()
    ∧ (fiberLoopIteration stateC1b 0).1 = .ok (.resumedReady 2)
    ∧ (nth stateC1c.tls 0).map (fun t => t.OldFiberIndex) = some 0
    ∧ (nth stateC1c.tls 0).map (fun t => t.OldFiberDestination) = some .ToPool
    ∧ nth stateC1d.freeFibers 0 = some true
    ∧ (nth stateC1d.tls 0).map (fun t => t.PinnedTasks) = some [⟨0, 0, 7⟩]
    ∧ nth stateC1d.freeFibers 1 = some false := by
  decide

/-! ## Traces of the operations: where free-fiber flags are stored -/

theorem addTask_trace (s : SchedState) (tid task : Nat) (co : Option Nat) :
    (addTask s tid task co).2.2 =
      match co with
      | some c => [Event.counterStore c 1]
      | none => [] := by
  unfold addTask
  cases co <;> dsimp only <;> split <;> rfl

theorem addTasks_trace (s : SchedState) (tid : Nat) (tasks : List Nat) (co : Option Nat) :
    (addTasks s tid tasks co).2.2 =
      match co with
      | some c => [Event.counterStore c tasks.length]
      | none => [] := by
  unfold addTasks
  cases co <;> dsimp only <;> split <;> rfl

theorem addReadyFiber_trace (s : SchedState) (callerId fiberIndex flag : Nat) :
    (addReadyFiber s callerId fiberIndex flag).2.2 = [] := by
  unfold addReadyFiber
  split <;> rfl

theorem stealScan_trace (s : SchedState) (tid : Nat) (t : ThreadLocalStorage) (start : Nat) :
    ∀ (rem i : Nat), (stealScan s tid t start i rem).2.2 = [] := by
  intro rem
  induction rem with
  | zero => intro i; rfl
  | succ rem ih =>
    intro i
    unfold stealScan
    dsimp only
    split
    · exact ih (i + 1)
    · split
      · rfl
      · split
        · exact ih (i + 1)
        · rfl

theorem getNextTask_trace (s : SchedState) (tid : Nat) : (getNextTask s tid).2.2 = [] := by
  unfold getNextTask
  split
  · rfl
  · split
    · rfl
    · exact stealScan_trace s tid _ _ _ _

theorem findFirstReady_events (flags : List (Option Bool)) :
    ∀ (l : List (Nat × Nat)) (e : Event),
      e ∈ (findFirstReady flags l).2 → ∃ f, e = .storedFlagLoad f .relaxed := by
  intro l
  induction l with
  | nil => intro e he; exact absurd he (by simp [findFirstReady])
  | cons x rest ih =>
    intro e he
    unfold findFirstReady at he
    split at he
    · split at he
      · exact ⟨x.2, by simpa using he⟩
      · split at he
        · rename_i w rest' ev heq
          rcases List.mem_cons.mp he with rfl | hm
          · exact ⟨x.2, rfl⟩
          · exact ih e (by rw [heq]; exact hm)
        · rename_i ev heq
          rcases List.mem_cons.mp he with rfl | hm
          · exact ⟨x.2, rfl⟩
          · exact ih e (by rw [heq]; exact hm)
        · rename_i err ev heq
          rcases List.mem_cons.mp he with rfl | hm
          · exact ⟨x.2, rfl⟩
          · exact ih e (by rw [heq]; exact hm)
    · exact absurd he (by simp)

theorem executeNextTask_no_free_store (s : SchedState) (tid : Nat) (i : Nat) (b : Bool)
    (o : MemOrder) : Event.freeFiberStore i b o ∉ (executeNextTask s tid).2.2 := by
  intro hmem
  unfold executeNextTask at hmem
  split at hmem
  · rename_i e s' ev heq
    have hev : ev = [] := by
      have := getNextTask_trace s tid
      rw [heq] at this
      exact this
    rw [hev] at hmem
    simp at hmem
  · rename_i s' ev heq
    have hev : ev = [] := by
      have := getNextTask_trace s tid
      rw [heq] at this
      exact this
    rw [hev] at hmem
    simp at hmem
  · rename_i bd s' ev heq
    have hev : ev = [] := by
      have := getNextTask_trace s tid
      rw [heq] at this
      exact this
    split at hmem <;> rw [hev] at hmem <;> simp at hmem

theorem fiberLoopIteration_no_free_store (s : SchedState) (tid : Nat) (i : Nat) (b : Bool)
    (o : MemOrder) : Event.freeFiberStore i b o ∉ (fiberLoopIteration s tid).2.2 := by
  intro hmem
  unfold fiberLoopIteration at hmem
  split at hmem
  · simp at hmem
  · split at hmem
    · simp at hmem
    · split at hmem
      · rename_i e ev heq
        obtain ⟨f, hf⟩ := findFirstReady_events s.flags _ _ (by rw [heq]; exact hmem)
        exact Event.noConfusion hf
      · rename_i w rest ev heq
        rcases List.mem_append.mp hmem with hm | hm
        · obtain ⟨f, hf⟩ := findFirstReady_events s.flags _ _ (by rw [heq]; exact hm)
          exact Event.noConfusion hf
        · simp at hm
      · rename_i ev heq
        split at hmem
        rename_i r s' ev2 heq2
        rcases List.mem_append.mp hmem with hm | hm
        · obtain ⟨f, hf⟩ := findFirstReady_events s.flags _ _ (by rw [heq]; exact hm)
          exact Event.noConfusion hf
        · exact executeNextTask_no_free_store s tid i b o (by rw [heq2]; exact hm)

theorem cleanUpOldFiber_free_store (s : SchedState) (tid : Nat) (i : Nat) (b : Bool)
    (o : MemOrder)
    (hmem : Event.freeFiberStore i b o ∈ (cleanUpOldFiber s tid).2.2) :
    ∃ t, nth s.tls tid = some t ∧ t.OldFiberDestination = .ToPool
      ∧ i = t.OldFiberIndex ∧ b = true ∧ o = .release := by
  unfold cleanUpOldFiber at hmem
  split at hmem
  · simp at hmem
  · rename_i t ht
    split at hmem
    · rename_i hdest
      refine ⟨t, ht, hdest, ?_⟩
      simpa using hmem
    · rename_i hdest
      split at hmem
      · simp at hmem
      · simp at hmem
    · simp at hmem

theorem waitForCounter_free_store_true (s : SchedState) (tid c value : Nat) (pin : Bool)
    (mid : Nat → Nat) (i : Nat) (o : MemOrder)
    (hmem : Event.freeFiberStore i true o ∈ (waitForCounter s tid c value pin mid).2.2) :
    (waitForCounter s tid c value pin mid).1 = .ok .alreadyDoneReturn ∧ o = .release := by
  by_cases hfast : counterLoadVal s c = value
  · rw [waitForCounter, if_pos hfast] at hmem
    simp at hmem
  · rw [waitForCounter, if_neg hfast] at hmem ⊢
    cases hnth : nth s.tls tid with
    | none => rw [hnth] at hmem; simp at hmem
    | some t =>
      rw [hnth] at hmem
      cases hfree : findFreeFiber s.freeFibers with
      | none => rw [hfree] at hmem; simp at hmem
      | some idx =>
        rw [hfree] at hmem
        dsimp only at hmem ⊢
        unfold waitForCounterCont at hmem ⊢
        cases pin with
        | true => simp at hmem
        | false =>
          rw [if_neg Bool.false_ne_true] at hmem ⊢
          split at hmem
          · rename_i hrc
            rw [if_pos hrc]
            refine ⟨rfl, ?_⟩
            simp at hmem
            exact hmem.2
          · rename_i hrc
            simp at hmem

/-! ## C2 — which operations set a free-fiber flag to true -/

/-- C2: the claim is that after initialization only `CleanUpOldFiber` ever
stores `true` into a fiber-pool free flag.  What actually holds: `AddTask`,
`AddTasks`, `AddReadyFiber`, `GetNextTask` and the fiber-loop body never do;
a free-fiber store of `true` in `CleanUpOldFiber` happens exactly on the
`ToPool` destination (release ordering); but `WaitForCounter` also stores
`true` into a free-fiber flag — precisely on its already-done path, where it
returns the just-reserved replacement fiber (which never ran) to the pool. -/
theorem C2_free_flag_release_sites :
    (∀ (s : SchedState) (tid task : Nat) (co : Option Nat) (i : Nat) (o : MemOrder),
       Event.freeFiberStore i true o ∉ (addTask s tid task co).2.2)
    ∧ (∀ (s : SchedState) (tid : Nat) (tasks : List Nat) (co : Option Nat) (i : Nat)
         (o : MemOrder), Event.freeFiberStore i true o ∉ (addTasks s tid tasks co).2.2)
    ∧ (∀ (s : SchedState) (callerId fiberIndex flag i : Nat) (o : MemOrder),
         Event.freeFiberStore i true o ∉ (addReadyFiber s callerId fiberIndex flag).2.2)
    ∧ (∀ (s : SchedState) (tid i : Nat) (o : MemOrder),
         Event.freeFiberStore i true o ∉ (getNextTask s tid).2.2)
    ∧ (∀ (s : SchedState) (tid i : Nat) (o : MemOrder),
         Event.freeFiberStore i true o ∉ (fiberLoopIteration s tid).2.2)
    ∧ (∀ (s : SchedState) (tid i : Nat) (b : Bool) (o : MemOrder),
         Event.freeFiberStore i b o ∈ (cleanUpOldFiber s tid).2.2 →
           ∃ t, nth s.tls tid = some t ∧ t.OldFiberDestination = .ToPool
             ∧ i = t.OldFiberIndex ∧ b = true ∧ o = .release)
    ∧ (∀ (s : SchedState) (tid c value : Nat) (pin : Bool) (mid : Nat → Nat) (i : Nat)
         (o : MemOrder),
         Event.freeFiberStore i true o ∈ (waitForCounter s tid c value pin mid).2.2 →
           (waitForCounter s tid c value pin mid).1 = .ok .alreadyDoneReturn
             ∧ o = .release) := by
  refine ⟨?_, ?_, ?_, ?_, ?_, ?_, ?_⟩
  · intro s tid task co i o hmem
    rw [addTask_trace] at hmem
    cases co <;> simp at hmem
  · intro s tid tasks co i o hmem
    rw [addTasks_trace] at hmem
    cases co <;> simp at hmem
  · intro s callerId fiberIndex flag i o hmem
    rw [addReadyFiber_trace] at hmem
    simp at hmem
  · intro s tid i o hmem
    rw [getNextTask_trace] at hmem
    simp at hmem
  · intro s tid i o
    exact fiberLoopIteration_no_free_store s tid i true o
  · intro s tid i b o
    exact cleanUpOldFiber_free_store s tid i b o
  · intro s tid c value pin mid i o
    exact waitForCounter_free_store_true s tid c value pin mid i o

/-- Counterexample for C2 as stated: on `stateC2` an unpinned
`WaitForCounter(counter 0, 0)` that loses the race (the last decrement lands
between the fast-path check and the parking) stores `true` into free-fiber
flag 1 — a free-fiber release performed by `WaitForCounter`, not by
`CleanUpOldFiber`. -/
theorem C2_waitForCounter_stores_free_flag_true :
    Event.freeFiberStore 1 true .release ∈
        (waitForCounter stateC2 0 0 0 false (fun v => v - 1)).2.2
    ∧ (waitForCounter stateC2 0 0 0 false (fun v => v - 1)).1 = .ok .alreadyDoneReturn := by
  decide

/-- Witness for C2: the characterization applied to the concrete already-done
run on `stateC2`. -/
theorem C2_free_flag_release_sites_witness :
    (waitForCounter stateC2 0 0 0 false (fun v => v - 1)).1 = .ok .alreadyDoneReturn
    ∧ MemOrder.release = MemOrder.release :=
  C2_free_flag_release_sites.2.2.2.2.2.2 stateC2 0 0 0 false (fun v => v - 1) 1 .release
    (by decide)

/-! ## C3 — iterated AddTask versus one AddTasks call -/

theorem addTask_ok (s : SchedState) (tid task c : Nat) (t : ThreadLocalStorage) (x : CounterState)
    (ht : nth s.tls tid = some t) (hx : nth s.counters c = some x) :
    addTask s tid task (some c) =
      (.ok (),
       { s with counters := setNth s.counters c { x with value := 1 % UINT_MOD },
                tls := setNth s.tls tid { t with TaskQueue := t.TaskQueue ++ [⟨task, some c⟩] } },
       [Event.counterStore c 1]) := by
  unfold addTask
  dsimp only
  rw [modifyCounter, hx]
  dsimp only
  rw [ht]

theorem addTasks_ok (s : SchedState) (tid c : Nat) (tasks : List Nat) (t : ThreadLocalStorage)
    (x : CounterState) (ht : nth s.tls tid = some t) (hx : nth s.counters c = some x) :
    addTasks s tid tasks (some c) =
      (.ok (),
       { s with counters := setNth s.counters c { x with value := tasks.length % UINT_MOD },
                tls := setNth s.tls tid
                  { t with TaskQueue := t.TaskQueue ++ tasks.map (fun a => ⟨a, some c⟩) } },
       [Event.counterStore c tasks.length]) := by
  unfold addTasks
  dsimp only
  rw [modifyCounter, hx]
  dsimp only
  rw [ht]

theorem addTaskIter_ok :
    ∀ (tasks : List Nat) (s : SchedState) (tid c : Nat) (t : ThreadLocalStorage)
      (x : CounterState), nth s.tls tid = some t → nth s.counters c = some x → tasks ≠ [] →
      addTaskIter s tid tasks (some c) =
        (.ok (),
         { s with counters := setNth s.counters c { x with value := 1 % UINT_MOD },
                  tls := setNth s.tls tid
                    { t with TaskQueue := t.TaskQueue ++ tasks.map (fun a => ⟨a, some c⟩) } },
         tasks.map (fun _ => Event.counterStore c 1)) := by
  intro tasks
  induction tasks with
  | nil => intro s tid c t x ht hx hne; exact absurd rfl hne
  | cons a rest ih =>
    intro s tid c t x ht hx hne
    have hTid : tid < s.tls.length := nth_some_lt_length s.tls tid t ht
    have hCid : c < s.counters.length := nth_some_lt_length s.counters c x hx
    rw [addTaskIter, addTask_ok s tid a c t x ht hx]
    dsimp only
    cases rest with
    | nil =>
      rw [addTaskIter]
      rfl
    | cons b rest' =>
      have ht2 : nth (setNth s.tls tid { t with TaskQueue := t.TaskQueue ++ [⟨a, some c⟩] }) tid
          = some { t with TaskQueue := t.TaskQueue ++ [⟨a, some c⟩] } :=
        nth_setNth_self s.tls tid _ hTid
      have hx2 : nth (setNth s.counters c { x with value := 1 % UINT_MOD }) c
          = some { x with value := 1 % UINT_MOD } :=
        nth_setNth_self s.counters c _ hCid
      rw [ih _ tid c _ _ ht2 hx2 (by simp)]
      rw [setNth_setNth, setNth_setNth]
      rw [List.append_assoc]
      rfl

/-- C3: the claim is that N separate `AddTask(task_i, C)` calls are
state-equivalent to one `AddTasks(N, tasks, C)` call, with `C` holding the
number of outstanding tasks.  What actually holds: both submission paths
enqueue exactly the same bundles in the same order onto the calling worker's
queue (and touch nothing else in the TLS array), but each `AddTask` stores 1
into the counter, overwriting the previous store, so after N separate calls
the counter holds 1 while `AddTasks` stores N — the two are equivalent only
for N = 1, and waiting for `C == 0` after N separate `AddTask` calls is
released after a single task completion. -/
theorem C3_addTask_iter_vs_addTasks (s : SchedState) (tid c : Nat) (t : ThreadLocalStorage)
    (x : CounterState) (tasks : List Nat)
    (ht : nth s.tls tid = some t) (hx : nth s.counters c = some x) (hne : tasks ≠ []) :
    (addTaskIter s tid tasks (some c)).2.1.tls = (addTasks s tid tasks (some c)).2.1.tls
    ∧ (addTaskIter s tid tasks (some c)).2.1.tls
        = setNth s.tls tid { t with TaskQueue := t.TaskQueue ++ tasks.map (fun a => ⟨a, some c⟩) }
    ∧ counterLoadVal (addTaskIter s tid tasks (some c)).2.1 c = 1
    ∧ counterLoadVal (addTasks s tid tasks (some c)).2.1 c = tasks.length % UINT_MOD
    ∧ (addTaskIter s tid tasks (some c)).1 = .ok ()
    ∧ (addTasks s tid tasks (some c)).1 = .ok () := by
  have hCid : c < s.counters.length := nth_some_lt_length s.counters c x hx
  rw [addTaskIter_ok tasks s tid c t x ht hx hne, addTasks_ok s tid c tasks t x ht hx]
  have hone : (1 : Nat) % UINT_MOD = 1 := Nat.mod_eq_of_lt (by norm_num [UINT_MOD])
  refine ⟨rfl, rfl, ?_, ?_, rfl, rfl⟩
  · show counterValueOf (setNth s.counters c { x with value := 1 % UINT_MOD }) c = 1
    rw [counterValueOf, nth_setNth_self s.counters c _ hCid]
    exact hone
  · show counterValueOf (setNth s.counters c { x with value := tasks.length % UINT_MOD }) c
      = tasks.length % UINT_MOD
    rw [counterValueOf, nth_setNth_self s.counters c _ hCid]

/-- Counterexample for C3 as stated: submitting two tasks through two
`AddTask` calls leaves counter 0 holding 1, not 2, so the resulting scheduler
state differs from the one produced by a single `AddTasks` call, and waiting
for 0 no longer means both tasks finished. -/
theorem C3_two_addTask_calls_leave_counter_one :
    counterLoadVal (addTaskIter stateC3 0 [7, 8] (some 0)).2.1 0 = 1
    ∧ counterLoadVal (addTasks stateC3 0 [7, 8] (some 0)).2.1 0 = 2
    ∧ (addTaskIter stateC3 0 [7, 8] (some 0)).2.1 ≠ (addTasks stateC3 0 [7, 8] (some 0)).2.1 := by
  decide

/-- Witness for C3: the characterization applied to two tasks on `stateC3`. -/
theorem C3_addTask_iter_vs_addTasks_witness :
    counterLoadVal (addTaskIter stateC3 0 [7, 8] (some 0)).2.1 0 = 1
    ∧ counterLoadVal (addTasks stateC3 0 [7, 8] (some 0)).2.1 0 = [7, 8].length % UINT_MOD :=
  ⟨(C3_addTask_iter_vs_addTasks stateC3 0 0 tlsBase ⟨0, []⟩ [7, 8] (by decide) (by decide)
      (by decide)).2.2.1,
   (C3_addTask_iter_vs_addTasks stateC3 0 0 tlsBase ⟨0, []⟩ [7, 8] (by decide) (by decide)
      (by decide)).2.2.2.1⟩

/-! ## C6 — priority order of the fiber-loop scans -/

theorem findFirstPinned_first (cs : List CounterState) :
    ∀ (l1 : List PinnedWaitingFiberBundle) (b : PinnedWaitingFiberBundle)
      (l2 : List PinnedWaitingFiberBundle),
      (∀ y ∈ l1, counterValueOf cs y.Counter ≠ y.TargetValue) →
      counterValueOf cs b.Counter = b.TargetValue →
      findFirstPinned cs (l1 ++ b :: l2) = some (b, l1 ++ l2)
  | [], b, l2, _, hb => by
    rw [List.nil_append, findFirstPinned, if_pos hb]
    rfl
  | a :: l1, b, l2, h, hb => by
    rw [List.cons_append, findFirstPinned, if_neg (h a (List.mem_cons_self a l1)),
      findFirstPinned_first cs l1 b l2 (fun y hy => h y (List.mem_cons_of_mem a hy)) hb]
    rfl

theorem findFirstPinned_none (cs : List CounterState) :
    ∀ (l : List PinnedWaitingFiberBundle),
      (∀ y ∈ l, counterValueOf cs y.Counter ≠ y.TargetValue) → findFirstPinned cs l = none
  | [], _ => rfl
  | a :: l, h => by
    rw [findFirstPinned, if_neg (h a (List.mem_cons_self a l)),
      findFirstPinned_none cs l (fun y hy => h y (List.mem_cons_of_mem a hy))]

theorem findFirstReady_first (flags : List (Option Bool)) :
    ∀ (r1 : List (Nat × Nat)) (w : Nat × Nat) (r2 : List (Nat × Nat)),
      (∀ y ∈ r1, nth flags y.2 = some (some false)) →
      nth flags w.2 = some (some true) →
      findFirstReady flags (r1 ++ w :: r2) =
        (.ok (some (w, r1 ++ r2)),
         (r1 ++ [w]).map (fun y => Event.storedFlagLoad y.2 .relaxed))
  | [], w, r2, _, hw => by
    rw [List.nil_append, findFirstReady, hw]
    rfl
  | a :: r1, w, r2, h, hw => by
    rw [List.cons_append, findFirstReady, h a (List.mem_cons_self a r1),
      findFirstReady_first flags r1 w r2 (fun y hy => h y (List.mem_cons_of_mem a hy)) hw]
    rfl

theorem findFirstReady_none (flags : List (Option Bool)) :
    ∀ (l : List (Nat × Nat)),
      (∀ y ∈ l, nth flags y.2 = some (some false)) →
      findFirstReady flags l =
        (.ok none, l.map (fun y => Event.storedFlagLoad y.2 .relaxed))
  | [], _ => rfl
  | a :: l, h => by
    rw [findFirstReady, h a (List.mem_cons_self a l),
      findFirstReady_none flags l (fun y hy => h y (List.mem_cons_of_mem a hy))]
    rfl

/-- C6: in every iteration of the fiber-loop body, candidates are considered
in priority order.  First the pinned list: the first bundle whose counter
equals its target is selected and erased, with no stored-flag access at all
(no gate, no loads, flag heap unchanged).  Only if no pinned bundle matches,
the ready list: the first entry whose stored flag is true is selected, its
stored flag freed and the entry erased.  Only if neither yields a fiber does
the iteration fall through to the task path (`executeNextTask`: dequeue via
`GetNextTask` and run, or idle). -/
theorem C6_fiber_loop_priority (s : SchedState) (tid : Nat) (t : ThreadLocalStorage)
    (ht : nth s.tls tid = some t) :
    (∀ (l1 : List PinnedWaitingFiberBundle) (b : PinnedWaitingFiberBundle)
       (l2 : List PinnedWaitingFiberBundle),
       t.PinnedTasks = l1 ++ b :: l2 →
       (∀ y ∈ l1, counterValueOf s.counters y.Counter ≠ y.TargetValue) →
       counterValueOf s.counters b.Counter = b.TargetValue →
       fiberLoopIteration s tid =
         (.ok (.resumedPinned b.FiberIndex),
          { s with tls := setNth s.tls tid
                     { t with PinnedTasks := l1 ++ l2, OldFiberIndex := t.CurrentFiberIndex,
                              CurrentFiberIndex := b.FiberIndex,
                              OldFiberDestination := .ToPool } },
          [.switchFiber t.CurrentFiberIndex b.FiberIndex]))
    ∧ ((∀ y ∈ t.PinnedTasks, counterValueOf s.counters y.Counter ≠ y.TargetValue) →
       ∀ (r1 : List (Nat × Nat)) (w : Nat × Nat) (r2 : List (Nat × Nat)),
         t.ReadyFibers = r1 ++ w :: r2 →
         (∀ y ∈ r1, nth s.flags y.2 = some (some false)) →
         nth s.flags w.2 = some (some true) →
         fiberLoopIteration s tid =
           (.ok (.resumedReady w.1),
            { s with flags := setNth s.flags w.2 none,
                     tls := setNth s.tls tid
                              { t with ReadyFibers := r1 ++ r2,
                                       OldFiberIndex := t.CurrentFiberIndex,
                                       CurrentFiberIndex := w.1,
                                       OldFiberDestination := .ToPool } },
            (r1 ++ [w]).map (fun y => Event.storedFlagLoad y.2 .relaxed)
              ++ [.freeFlag w.2, .switchFiber t.CurrentFiberIndex w.1]))
    ∧ ((∀ y ∈ t.PinnedTasks, counterValueOf s.counters y.Counter ≠ y.TargetValue) →
       (∀ y ∈ t.ReadyFibers, nth s.flags y.2 = some (some false)) →
       fiberLoopIteration s tid =
         ((executeNextTask s tid).1, (executeNextTask s tid).2.1,
          t.ReadyFibers.map (fun y => Event.storedFlagLoad y.2 .relaxed)
            ++ (executeNextTask s tid).2.2)) := by
  refine ⟨?_, ?_, ?_⟩
  · intro l1 b l2 hl h1 hb
    rw [fiberLoopIteration, ht]
    dsimp only
    rw [hl, findFirstPinned_first s.counters l1 b l2 h1 hb]
  · intro hp r1 w r2 hr h1 hw
    rw [fiberLoopIteration, ht]
    dsimp only
    rw [findFirstPinned_none s.counters t.PinnedTasks hp]
    dsimp only
    rw [hr, findFirstReady_first s.flags r1 w r2 h1 hw]
  · intro hp hr
    rw [fiberLoopIteration, ht]
    dsimp only
    rw [findFirstPinned_none s.counters t.PinnedTasks hp]
    dsimp only
    rw [findFirstReady_none s.flags t.ReadyFibers hr]

/-- Witness for C6: on `stateC6` both a pinned bundle (fiber 4, counter 0 at
target) and a ready entry (fiber 5, flag true) are available; the pinned one
wins, is erased, and no stored flag is touched. -/
theorem C6_fiber_loop_priority_witness :
    fiberLoopIteration stateC6 0 =
      (.ok (.resumedPinned 4),
       { stateC6 with tls := setNth stateC6.tls 0
                        { tlsC6 with PinnedTasks := [],
                                     OldFiberIndex := tlsC6.CurrentFiberIndex,
                                     CurrentFiberIndex := 4,
                                     OldFiberDestination := .ToPool } },
       [.switchFiber tlsC6.CurrentFiberIndex 4]) :=
  (C6_fiber_loop_priority stateC6 0 tlsC6 (by decide)).1 [] ⟨4, 0, 0⟩ [] rfl (by decide)
    (by decide)

/-! ## C7 — GetNextTask: local pop, steal order, LastSuccessfulSteal -/

theorem stealScan_step (s : SchedState) (tid : Nat) (t : ThreadLocalStorage) (start i rem : Nat)
    (hfail : stealFailsAt s tid start i) :
    stealScan s tid t start i (rem + 1) = stealScan s tid t start (i + 1) rem := by
  rw [stealScan]
  dsimp only
  by_cases hv : (start + i) % s.threads.length = tid
  · rw [if_pos hv]
  · rw [if_neg hv]
    rcases hfail with h | h
    · exact absurd h hv
    · cases hn : nth s.tls ((start + i) % s.threads.length) with
      | none => rw [hn] at h; simp at h
      | some vt =>
        rw [hn] at h
        simp only [Option.map_some'] at h
        have hq : vt.TaskQueue = [] := Option.some_inj.mp h
        dsimp only
        rw [hq]

theorem stealScan_success (s : SchedState) (tid : Nat) (t : ThreadLocalStorage) (start : Nat) :
    ∀ (rem i k : Nat) (vt : ThreadLocalStorage) (b : TaskBundle) (q' : List TaskBundle),
      i ≤ k → k < i + rem →
      (∀ j, i ≤ j → j < k → stealFailsAt s tid start j) →
      (start + k) % s.threads.length ≠ tid →
      nth s.tls ((start + k) % s.threads.length) = some vt →
      vt.TaskQueue = b :: q' →
      stealScan s tid t start i rem =
        (.ok (some b),
         { s with tls := setNth (setNth s.tls ((start + k) % s.threads.length)
                                    { vt with TaskQueue := q' }) tid
                           { t with LastSuccessfulSteal := k } },
         []) := by
  intro rem
  induction rem with
  | zero => intro i k vt b q' hik hk _ _ _ _; omega
  | succ rem ih =>
    intro i k vt b q' hik hk hfails hvt hnth hq
    rcases Nat.eq_or_lt_of_le hik with rfl | hlt
    · rw [stealScan]
      dsimp only
      rw [if_neg hvt, hnth]
      dsimp only
      rw [hq]
    · rw [stealScan_step s tid t start i rem (hfails i (Nat.le_refl i) hlt)]
      exact ih (i + 1) k vt b q' hlt (by omega) (fun j hj1 hj2 => hfails j (by omega) hj2)
        hvt hnth hq

theorem stealScan_exhaust (s : SchedState) (tid : Nat) (t : ThreadLocalStorage) (start : Nat) :
    ∀ (rem i : Nat), (∀ j, i ≤ j → j < i + rem → stealFailsAt s tid start j) →
      stealScan s tid t start i rem = (.ok none, s, [])
  | 0, _, _ => rfl
  | rem + 1, i, h => by
    rw [stealScan_step s tid t start i rem (h i (Nat.le_refl i) (by omega))]
    exact stealScan_exhaust s tid t start rem (i + 1) (fun j hj1 hj2 => h j (by omega) (by omega))

/-- C7: the claim is that `GetNextTask` pops the local queue first, steals
scanning from `LastSuccessfulSteal` wrapping modulo `numThreads` and skipping
self, and on success updates `LastSuccessfulSteal` so that the next scan
starts at the yielding victim.  What actually holds: the pop, the scan order,
the skip and the returns-false condition are as claimed, but on a successful
steal `LastSuccessfulSteal` is set to the loop offset `k` — so the next scan
starts at index `(k + 0) % numThreads`, which is the yielding victim
`(old + k) % numThreads` only when the old value was a multiple of
`numThreads`. -/
theorem C7_getNextTask_characterization (s : SchedState) (tid : Nat) (t : ThreadLocalStorage)
    (ht : nth s.tls tid = some t) :
    (∀ (b : TaskBundle) (q' : List TaskBundle), popBottom t.TaskQueue = some (b, q') →
       getNextTask s tid =
         (.ok (some b), { s with tls := setNth s.tls tid { t with TaskQueue := q' } }, []))
    ∧ (popBottom t.TaskQueue = none →
       ∀ (k : Nat) (vt : ThreadLocalStorage) (b : TaskBundle) (q' : List TaskBundle),
         k < s.threads.length →
         (∀ j, j < k → stealFailsAt s tid t.LastSuccessfulSteal j) →
         (t.LastSuccessfulSteal + k) % s.threads.length ≠ tid →
         nth s.tls ((t.LastSuccessfulSteal + k) % s.threads.length) = some vt →
         vt.TaskQueue = b :: q' →
         getNextTask s tid =
           (.ok (some b),
            { s with tls := setNth (setNth s.tls
                                       ((t.LastSuccessfulSteal + k) % s.threads.length)
                                       { vt with TaskQueue := q' }) tid
                              { t with LastSuccessfulSteal := k } },
            []))
    ∧ (popBottom t.TaskQueue = none →
       (∀ j, j < s.threads.length → stealFailsAt s tid t.LastSuccessfulSteal j) →
       getNextTask s tid = (.ok none, s, [])) := by
  refine ⟨?_, ?_, ?_⟩
  · intro b q' hpop
    rw [getNextTask, ht]
    dsimp only
    rw [hpop]
  · intro hpop k vt b q' hkn hfails hvt hnth hq
    rw [getNextTask, ht]
    dsimp only
    rw [hpop]
    exact stealScan_success s tid t t.LastSuccessfulSteal s.threads.length 0 k vt b q'
      (Nat.zero_le k) (by omega) (fun j _ hj => hfails j hj) hvt hnth hq
  · intro hpop hfails
    rw [getNextTask, ht]
    dsimp only
    rw [hpop]
    exact stealScan_exhaust s tid t t.LastSuccessfulSteal s.threads.length 0
      (fun j _ hj => hfails j (by omega))

/-- Counterexample for C7 as stated: on `stateC7` worker 0 (own queue empty,
`LastSuccessfulSteal = 2`) steals the task of worker 1 (probed at loop
offset 2 after offset 0 hit the empty worker 2 and offset 1 hit itself), but
stores `LastSuccessfulSteal = 2` — the loop offset — so the next scan starts
at `(2 + 0) % 3 = 2`, not at the yielding victim, worker 1. -/
theorem C7_lastSteal_is_offset_not_victim :
    (getNextTask stateC7 0).1 = .ok (some ⟨9, none⟩)
    ∧ (nth (getNextTask stateC7 0).2.1.tls 1).map (fun vt => vt.TaskQueue) = some []
    ∧ (nth (getNextTask stateC7 0).2.1.tls 0).map (fun vt => vt.LastSuccessfulSteal) = some 2
    ∧ ¬((2 + 0) % 3 = 1) := by
  decide

/-- Witness for C7: the characterization applied to the concrete steal on
`stateC7` (success at loop offset 2, victim worker 1). -/
theorem C7_getNextTask_characterization_witness :
    getNextTask stateC7 0 =
      (.ok (some ⟨9, none⟩),
       { stateC7 with tls := setNth (setNth stateC7.tls ((2 + 2) % 3)
                                        { tlsC7b with TaskQueue := [] }) 0
                               { tlsC7a with LastSuccessfulSteal := 2 } },
       []) :=
  (C7_getNextTask_characterization stateC7 0 tlsC7a (by decide)).2.1 (by decide) 2 tlsC7b
    ⟨9, none⟩ [] (by decide) (by decide) (by decide) (by decide) (by decide)

/-! ## C8 — AddTask from a non-worker thread -/

/-- C8: the claim is that `AddTask` from a non-worker thread fails silently
with no out-of-bounds access and no state change.  What actually holds:
`GetCurrentThreadIndex` does return the sentinel invalid index, but `AddTask`
first stores 1 into the counter (if one was passed) and then indexes the TLS
array with the sentinel — an out-of-bounds access (undefined behavior in the
C++), not a silent no-op. -/
theorem C8_nonworker_addTask_oob (s : SchedState) (callerId task c : Nat)
    (hnw : ∀ x ∈ s.threads, x ≠ callerId)
    (hlen : s.tls.length ≤ FTL_INVALID_INDEX) :
    getCurrentThreadIndex s callerId = FTL_INVALID_INDEX
    ∧ addTask s (getCurrentThreadIndex s callerId) task (some c) =
        (.error .oobTlsAccess,
         { s with counters := modifyCounter s.counters c
                                (fun x => { x with value := 1 % UINT_MOD }) },
         [.counterStore c 1]) := by
  have hidx : getCurrentThreadIndex s callerId = FTL_INVALID_INDEX :=
    threadLookup_invalid s.threads callerId 0 hnw
  refine ⟨hidx, ?_⟩
  rw [hidx]
  unfold addTask
  dsimp only
  rw [nth_eq_none_of_le s.tls FTL_INVALID_INDEX hlen]

/-- Counterexample for C8 as stated: on `stateC8` (one worker, OS thread id
100) a call from the unregistered thread 999 yields the sentinel index, and
`AddTask` then returns the out-of-bounds TLS access error after having
already stored 1 into the counter — the state did change and an
out-of-bounds access did occur. -/
theorem C8_nonworker_addTask_not_silent :
    getCurrentThreadIndex stateC8 999 = FTL_INVALID_INDEX
    ∧ (addTask stateC8 (getCurrentThreadIndex stateC8 999) 42 (some 0)).1
        = .error .oobTlsAccess
    ∧ (addTask stateC8 (getCurrentThreadIndex stateC8 999) 42 (some 0)).2.1 ≠ stateC8 := by
  decide

/-- Witness for C8: the amended statement at the concrete non-worker call. -/
theorem C8_nonworker_addTask_oob_witness :
    getCurrentThreadIndex stateC8 999 = FTL_INVALID_INDEX
    ∧ addTask stateC8 (getCurrentThreadIndex stateC8 999) 42 (some 0) =
        (.error .oobTlsAccess,
         { stateC8 with counters := modifyCounter stateC8.counters 0
                                      (fun x => { x with value := 1 % UINT_MOD }) },
         [.counterStore 0 1]) :=
  C8_nonworker_addTask_oob stateC8 999 42 0 (by decide) (by decide)

/-! ## C9 — memory orderings of the resumability publications -/

/-- C9: the claim is that the storedFlag publication in `CleanUpOldFiber`
uses release ordering and the storedFlag reads that lead to resuming use
acquire.  What actually holds in the source: the free-fiber-flag releases
(the `ToPool` branch of `CleanUpOldFiber` and every free-fiber store of
`WaitForCounter`, including the already-done release) do use release
ordering, but the storedFlag publication does not — `CleanUpOldFiber`'s
`ToWaiting` branch stores `true` with relaxed ordering
(`task_scheduler.cpp:425`) and the ready-scan reads of storedFlags are
relaxed loads (`task_scheduler.cpp:116`). -/
theorem C9_publication_orderings :
    (∀ (s : SchedState) (tid : Nat) (t : ThreadLocalStorage) (b : Bool),
       nth s.tls tid = some t → t.OldFiberDestination = .ToWaiting →
       nth s.flags t.OldFiberStoredFlag = some (some b) →
       (cleanUpOldFiber s tid).2.2 = [.storedFlagStore t.OldFiberStoredFlag true .relaxed])
    ∧ (∀ (s : SchedState) (tid : Nat) (t : ThreadLocalStorage),
       nth s.tls tid = some t → t.OldFiberDestination = .ToPool →
       (cleanUpOldFiber s tid).2.2 = [.freeFiberStore t.OldFiberIndex true .release])
    ∧ (∀ (flags : List (Option Bool)) (l : List (Nat × Nat)) (f : Nat) (o : MemOrder),
       Event.storedFlagLoad f o ∈ (findFirstReady flags l).2 → o = .relaxed)
    ∧ (∀ (s : SchedState) (tid c value : Nat) (pin : Bool) (mid : Nat → Nat) (i : Nat)
         (b : Bool) (o : MemOrder),
       Event.freeFiberStore i b o ∈ (waitForCounter s tid c value pin mid).2.2 →
         o = .release) := by
  refine ⟨?_, ?_, ?_, ?_⟩
  · intro s tid t b ht hdest hflag
    rw [cleanUpOldFiber, ht]
    dsimp only
    rw [hdest]
    dsimp only
    rw [hflag]
  · intro s tid t ht hdest
    rw [cleanUpOldFiber, ht]
    dsimp only
    rw [hdest]
  · intro flags l f o hmem
    obtain ⟨f', hf⟩ := findFirstReady_events flags l _ hmem
    injection hf with h1 h2
  · intro s tid c value pin mid i b o hmem
    by_cases hfast : counterLoadVal s c = value
    · rw [waitForCounter, if_pos hfast] at hmem
      simp at hmem
    · rw [waitForCounter, if_neg hfast] at hmem
      cases hnth : nth s.tls tid with
      | none => rw [hnth] at hmem; simp at hmem
      | some t =>
        rw [hnth] at hmem
        cases hfree : findFreeFiber s.freeFibers with
        | none => rw [hfree] at hmem; simp at hmem
        | some idx =>
          rw [hfree] at hmem
          dsimp only at hmem
          unfold waitForCounterCont at hmem
          cases pin with
          | true =>
            simp at hmem
            exact hmem.2.2
          | false =>
            rw [if_neg Bool.false_ne_true] at hmem
            split at hmem
            · simp at hmem
              rcases hmem with h | h
              · exact h.2.2
              · exact h.2.2
            · simp at hmem
              exact hmem.2.2

/-- Counterexample for C9 as stated: on `stateC9` (deferred `ToWaiting`
cleanup of stored flag 0) the publication trace is a single relaxed store —
not a release store — and the ready-scan load of a stored flag is likewise a
relaxed load, not an acquire load. -/
theorem C9_storedFlag_publication_is_relaxed :
    (cleanUpOldFiber stateC9 0).2.2 = [.storedFlagStore 0 true .relaxed]
    ∧ MemOrder.relaxed ≠ MemOrder.release
    ∧ Event.storedFlagLoad 0 MemOrder.relaxed ∈ (findFirstReady [some false] [(2, 0)]).2
    ∧ MemOrder.relaxed ≠ MemOrder.acquire := by
  decide

/-- Witness for C9: the ordering characterization at the concrete `ToWaiting`
cleanup on `stateC9`. -/
theorem C9_publication_orderings_witness :
    (cleanUpOldFiber stateC9 0).2.2 = [.storedFlagStore 0 true .relaxed] :=
  C9_publication_orderings.1 stateC9 0 tlsC9 false (by decide) (by decide) (by decide)

/-! ## C10 — AddReadyFiber delivers to the calling worker's own list -/

/-- C10: `AddReadyFiber(fiberIndex, storedFlagPtr)` appends the pair to the
`ReadyFibers` list of the calling thread's own TLS entry
(`m_tls[GetCurrentThreadIndex()]`) and leaves every other worker's TLS entry
unchanged — so a fiber woken by a counter decrement is delivered to the
worker that performed the decrement (the caller), never to another worker's
ready list. -/
theorem C10_addReadyFiber_appends_locally (s : SchedState)
    (callerId fiberIndex flagId tid : Nat) (t : ThreadLocalStorage)
    (hidx : getCurrentThreadIndex s callerId = tid)
    (ht : nth s.tls tid = some t) :
    addReadyFiber s callerId fiberIndex flagId =
      (.ok (),
       { s with tls := setNth s.tls tid
                         { t with ReadyFibers := t.ReadyFibers ++ [(fiberIndex, flagId)] } },
       [])
    ∧ ∀ j, j ≠ tid →
        nth (addReadyFiber s callerId fiberIndex flagId).2.1.tls j = nth s.tls j := by
  have h1 : addReadyFiber s callerId fiberIndex flagId =
      (.ok (),
       { s with tls := setNth s.tls tid
                         { t with ReadyFibers := t.ReadyFibers ++ [(fiberIndex, flagId)] } },
       []) := by
    unfold addReadyFiber
    rw [hidx, ht]
  refine ⟨h1, ?_⟩
  intro j hj
  rw [h1]
  exact nth_setNth_ne s.tls tid j _ (Ne.symm hj)

/-- Witness for C10: on `stateC10` a call from worker 1 (OS thread id 101)
appends to worker 1's ready list and leaves worker 0's TLS untouched. -/
theorem C10_addReadyFiber_appends_locally_witness :
    addReadyFiber stateC10 101 7 3 =
      (.ok (),
       { stateC10 with tls := setNth stateC10.tls 1
                                { tlsBase with ReadyFibers := [(7, 3)] } },
       [])
    ∧ nth (addReadyFiber stateC10 101 7 3).2.1.tls 0 = nth stateC10.tls 0 :=
  ⟨(C10_addReadyFiber_appends_locally stateC10 101 7 3 1 tlsBase (by decide) (by decide)).1,
   (C10_addReadyFiber_appends_locally stateC10 101 7 3 1 tlsBase (by decide) (by decide)).2
     0 (by decide)⟩

end ftl
